import Mathlib

/-!
Verification development for the tour-guide recommendation core
(`src/main.py` of the `tour_guide_API` repository).

The Python source is shallowly embedded: floating-point arithmetic is
modelled by exact real arithmetic over `ℝ`; the pandas `DataFrame` is
modelled by a `Table` (a schema-presence pair of booleans for the
`City`/`Name` columns, a list of rows, and an optional `distance_km`
column); `math.atan2` is modelled by the standard piecewise `atan2` on
reals; the pandas pipeline of `filter_places` is modelled stage by stage.
-/

noncomputable section

namespace TourGuide

/-- Embedding of Python's `math.radians`: degrees to radians. -/
def radians (x : ℝ) : ℝ := x * Real.pi / 180

/-- Embedding of Python's `math.atan2 y x` (the usual quadrant-aware
arctangent convention, `atan2 0 0 = 0`). -/
def atan2 (y x : ℝ) : ℝ :=
  if 0 < x then Real.arctan (y / x)
  else if x < 0 then
    (if 0 ≤ y then Real.arctan (y / x) + Real.pi else Real.arctan (y / x) - Real.pi)
  else
    (if 0 < y then Real.pi / 2 else if y < 0 then -(Real.pi / 2) else 0)

/-- Embedding of `haversine` (src/main.py lines 24-35): great-circle
distance on a sphere of radius 6371. -/
def haversine (lat1 lon1 lat2 lon2 : ℝ) : ℝ :=
  let R : ℝ := 6371
  let dlat := radians (lat2 - lat1)
  let dlon := radians (lon2 - lon1)
  let a := Real.sin (dlat / 2) ^ 2 +
    Real.cos (radians lat1) * Real.cos (radians lat2) * Real.sin (dlon / 2) ^ 2
  let c := 2 * atan2 (Real.sqrt a) (Real.sqrt (1 - a))
  R * c

/-- Embedding of `trip_logic` (src/main.py lines 55-66).  The Python
defaults are `speed=50, sleep=6, meal=3, buffer=2, compromise=False`;
callers of the embedding pass all arguments explicitly.  Returns the pair
`(max_distance, usable)`; the unused `explore_hours` of the source is not
materialised. -/
def trip_logic (days speed sleep meal buffer : ℝ) (compromise : Bool) : ℝ × ℝ :=
  let total_hours := days * 24
  let usable0 := total_hours - days * (sleep + meal + buffer)
  let usable := if compromise then usable0 + (sleep - 4) else usable0
  let travel_hours := 2 / 3 * usable
  let max_distance := travel_hours * speed
  (max_distance, usable)

/-- Embedding of `bounding_box` (src/main.py lines 73-76); returns
`(min_lat, max_lat, min_lon, max_lon)`. -/
def bounding_box (lat lon distance_km : ℝ) : ℝ × ℝ × ℝ × ℝ :=
  let delta_lat := distance_km / 111.0
  let delta_lon := distance_km / (111.0 * Real.cos (radians lat))
  (lat - delta_lat, lat + delta_lat, lon - delta_lon, lon + delta_lon)

/-- A catalog record: `Name`, `City`, `Latitude`, `Longitude`.  The
descriptive attributes (category, rating, visit duration) are opaque to
the core and omitted. -/
structure Place where
  name : String
  city : String
  latitude : ℝ
  longitude : ℝ

/-- A pandas `DataFrame` as used by `filter_places`: presence flags for
the `City` and `Name` columns (the two columns whose presence the code
tests), the rows, and the optional `distance_km` column added by the
pipeline (a parallel list of reals). -/
structure Table where
  hasCity : Bool
  hasName : Bool
  rows : List Place
  distCol : Option (List ℝ)

/-- The all-empty table (used as the junk value for out-of-range reads). -/
def emptyTable : Table := ⟨false, false, [], none⟩

/-- Step 1 of `filter_places` (lines 81-85): keep the rows inside the
axis-aligned bounding box. -/
def box_filter (rows : List Place) (lat_x lon_x distance_km : ℝ) : List Place :=
  let bb := bounding_box lat_x lon_x distance_km
  rows.filter fun p =>
    decide (bb.1 ≤ p.latitude ∧ p.latitude ≤ bb.2.1 ∧
      bb.2.2.1 ≤ p.longitude ∧ p.longitude ≤ bb.2.2.2)

/-- Step 2 of `filter_places` (lines 88-91): pair every surviving row
with its exact haversine distance from the origin. -/
def with_distance (lat_x lon_x : ℝ) (ps : List Place) : List (Place × ℝ) :=
  ps.map fun p => (p, haversine lat_x lon_x p.latitude p.longitude)

/-- Step 3 of `filter_places` (lines 93-96): keep only the rows whose
distance lies in the inclusive band
`[max_distance_km - tolerance, max_distance_km + tolerance]`. -/
def band_filter (rows : List (Place × ℝ)) (max_distance_km tolerance : ℝ) :
    List (Place × ℝ) :=
  let min_dist := max_distance_km - tolerance
  let max_dist := max_distance_km + tolerance
  rows.filter fun pd => decide (min_dist ≤ pd.2 ∧ pd.2 ≤ max_dist)

/-- Step 4 of `filter_places` (line 97): sort ascending by the distance
column (stable merge sort). -/
def sort_by_distance (rows : List (Place × ℝ)) : List (Place × ℝ) :=
  rows.mergeSort fun a b => decide (a.2 ≤ b.2)

/-- Step 5 of `filter_places` (lines 98-102): walk the sorted rows and
append each city the first time it is seen (the Python `city` list). -/
def collect_cities : List (Place × ℝ) → List String → List String
  | [], acc => acc
  | pd :: rest, acc =>
    if pd.1.city ∈ acc then collect_cities rest acc
    else collect_cities rest (acc ++ [pd.1.city])

/-- Embedding of `filter_places` (src/main.py lines 80-107).  When the
`City` or `Name` column is missing the source prints a message and
returns the (still empty) `city` list; both branches return
`city[0:5]`. -/
def filter_places (df : Table) (lat_x lon_x max_distance_km tolerance : ℝ) :
    List String :=
  let candidates := box_filter df.rows lat_x lon_x (max_distance_km + tolerance)
  let withDist := with_distance lat_x lon_x candidates
  let filtered := band_filter withDist max_distance_km tolerance
  let sorted := sort_by_distance filtered
  let city := if df.hasCity && df.hasName then collect_cities sorted [] else []
  city.take 5

/-- Store-passing embedding of `filter_places`, making the pandas object
graph explicit.  The store is a list of tables; `dfRef` is the caller's
shared catalog.  Line 85's `df[...].copy()` allocates a fresh table
(`candRef`); line 88's `candidates['distance_km'] = ...` is the only
write, and it targets `candRef`.  Returns the city list and the final
store. -/
def filter_places_store (store : List Table) (dfRef : ℕ)
    (lat_x lon_x max_distance_km tolerance : ℝ) : List String × List Table :=
  let df := store.getD dfRef emptyTable
  let cand_rows := box_filter df.rows lat_x lon_x (max_distance_km + tolerance)
  let candRef := store.length
  let store1 := store ++ [⟨df.hasCity, df.hasName, cand_rows, none⟩]
  let dists := cand_rows.map fun p => haversine lat_x lon_x p.latitude p.longitude
  let store2 := store1.set candRef ⟨df.hasCity, df.hasName, cand_rows, some dists⟩
  let cand := store2.getD candRef emptyTable
  let withDist := cand.rows.zip (cand.distCol.getD [])
  let filtered := band_filter withDist max_distance_km tolerance
  let sorted := sort_by_distance filtered
  let city := if cand.hasCity && cand.hasName then collect_cities sorted [] else []
  (city.take 5, store2)

/-- The `/recommend-cities` request body (src/main.py lines 113-128):
`user_location`, `trip_days`, `speed` — nothing else. -/
structure RecommendRequest where
  user_location : String
  trip_days : ℤ
  speed : ℤ

/-- The `/recommend-cities` response: either the error object or the
`max_distance_km` / `recommended_cities` payload. -/
inductive RecommendResponse where
  | locationNotFound : RecommendResponse
  | ok : ℝ → List String → RecommendResponse

/-- Python's `round(x, 2)` modelled as rounding `100 * x` to the nearest
integer (the half-to-even tie rule of CPython is irrelevant to the claims
checked here). -/
def round2 (x : ℝ) : ℝ := (round (x * 100) : ℤ) / 100

/-- Embedding of `recommend_cities` (src/main.py lines 138-152).  The
external geocoder (`get_lat_lon`, a network call) is passed in as a
function returning an optional coordinate pair.  The source calls
`trip_logic(request.trip_days, request.speed)`, so Python fills in the
defaults `sleep=6, meal=3, buffer=2, compromise=False`, and calls
`filter_places(df, lat, lon, max_distance)`, so Python fills in
`tolerance=150`. -/
def recommend_cities (geocode : String → Option (ℝ × ℝ)) (df : Table)
    (request : RecommendRequest) : RecommendResponse :=
  match geocode request.user_location with
  | none => RecommendResponse.locationNotFound
  | some (lat, lon) =>
    let md := trip_logic (request.trip_days : ℝ) (request.speed : ℝ) 6 3 2 false
    let tour_city := filter_places df lat lon md.1 150
    RecommendResponse.ok (round2 md.1) (tour_city.take 5)

/-! ## Basic helper lemmas -/

/-- The haversine distance from a point to itself is zero (for any real
inputs, even out-of-range ones). -/
lemma haversine_self (lat lon : ℝ) : haversine lat lon lat lon = 0 := by
  simp [haversine, radians, atan2, Real.arctan_zero]

/-- Claim C8: with `trip_days = 3`, `speed = 50` and the default
allocations `sleep = 6, meal = 3, buffer = 2`, relaxed off, `trip_logic`
returns `usable_hours = 39` and `max_distance = 1300` exactly. -/
theorem trip_logic_mumbai_scenario : trip_logic 3 50 6 3 2 false = (1300, 39) := by
  simp only [trip_logic, if_neg (by simp : ¬(false : Bool) = true)]
  norm_num

/-- Counterexample to claim C4: on pathological allocations
(`sleep = 20, meal = 3, buffer = 2`, i.e. 25 h of fixed sinks per day)
`trip_logic` does not surface any error; it silently returns the negative
pair `(-100/3, -1)`. -/
theorem trip_logic_no_domain_error_cex :
    trip_logic 1 50 20 3 2 false = (-(100 / 3), -1) := by
  simp only [trip_logic, if_neg (by simp : ¬(false : Bool) = true)]
  norm_num

/-- Claim C4 (amended): `trip_logic` performs no validation; whenever the
fixed daily allocations exceed 24 hours (with `days > 0`, `speed > 0`,
relaxed off) it returns a strictly negative `max_distance` and strictly
negative `usable_hours` instead of a domain error. -/
theorem trip_logic_negative_usable_returns_negative
    (days speed sleep meal buffer : ℝ) (hd : 0 < days) (hs : 0 < speed)
    (hsum : 24 < sleep + meal + buffer) :
    (trip_logic days speed sleep meal buffer false).1 < 0 ∧
    (trip_logic days speed sleep meal buffer false).2 < 0 := by
  simp only [trip_logic, if_neg (by simp : ¬(false : Bool) = true)]
  constructor
  · have h : days * 24 - days * (sleep + meal + buffer) < 0 := by nlinarith
    nlinarith
  · nlinarith

/-- Witness for the amended claim C4 at a concrete input. -/
theorem trip_logic_negative_usable_returns_negative_witness :
    (trip_logic 1 50 20 3 2 false).1 < 0 ∧ (trip_logic 1 50 20 3 2 false).2 < 0 :=
  trip_logic_negative_usable_returns_negative 1 50 20 3 2 (by norm_num)
    (by norm_num) (by norm_num)

/-- Counterexample to claim C5: with `sleep = 2 < 4` the relaxed
(compromise) flag strictly *decreases* `usable_hours` (15 against 17), so
"strictly greater except when sleep == 4" is false. -/
theorem trip_logic_compromise_decreases_cex :
    (trip_logic 1 50 2 3 2 true).2 < (trip_logic 1 50 2 3 2 false).2 := by
  simp only [trip_logic]
  norm_num

/-- Claim C5 (amended): the relaxed adjustment adds `(sleep - 4)` to
`usable_hours` exactly once, independently of `days`; hence relaxed mode
strictly increases `usable_hours` iff `sleep > 4`, leaves it unchanged
iff `sleep = 4`, and strictly decreases it when `sleep < 4`. -/
theorem trip_logic_compromise_shift (days speed sleep meal buffer : ℝ) :
    (trip_logic days speed sleep meal buffer true).2
      = (trip_logic days speed sleep meal buffer false).2 + (sleep - 4) ∧
    (4 < sleep →
      (trip_logic days speed sleep meal buffer false).2
        < (trip_logic days speed sleep meal buffer true).2) ∧
    (sleep = 4 →
      (trip_logic days speed sleep meal buffer true).2
        = (trip_logic days speed sleep meal buffer false).2) ∧
    (sleep < 4 →
      (trip_logic days speed sleep meal buffer true).2
        < (trip_logic days speed sleep meal buffer false).2) := by
  refine ⟨?_, fun h => ?_, fun h => ?_, fun h => ?_⟩ <;> simp [trip_logic] <;> linarith

/-- Witness for the amended claim C5 at a concrete input (`sleep = 6`). -/
theorem trip_logic_compromise_shift_witness :
    (trip_logic 3 50 6 3 2 false).2 < (trip_logic 3 50 6 3 2 true).2 :=
  (trip_logic_compromise_shift 3 50 6 3 2).2.1 (by norm_num)

/-- `arctan` of a non-negative real is non-negative. -/
lemma arctan_nonneg_of_nonneg (x : ℝ) (hx : 0 ≤ x) : 0 ≤ Real.arctan x := by
  have h := Real.arctan_strictMono.monotone hx
  rwa [Real.arctan_zero] at h

/-- `atan2` of two non-negative arguments is non-negative. -/
lemma atan2_nonneg (y x : ℝ) (hy : 0 ≤ y) (hx : 0 ≤ x) : 0 ≤ atan2 y x := by
  have hpi := Real.pi_pos
  unfold atan2
  split_ifs <;> first
    | exact arctan_nonneg_of_nonneg _ (div_nonneg hy (le_of_lt (by assumption)))
    | linarith

/-- Counterexample to claim C7: at the invalid coordinate input
`lat1 = lat2 = 100` (latitude outside `[-90, 90]`) `haversine` raises no
domain error; it silently returns the number `0`. -/
theorem haversine_silent_on_invalid_cex : haversine 100 0 100 0 = 0 :=
  haversine_self 100 0

/-- Claim C7 (amended): `haversine` performs no input validation at all;
for every real input — in range or not — it silently returns a
non-negative real number, never a failure value. -/
theorem haversine_total_nonneg (lat1 lon1 lat2 lon2 : ℝ) :
    0 ≤ haversine lat1 lon1 lat2 lon2 := by
  simp only [haversine]
  have h := atan2_nonneg (Real.sqrt (Real.sin (radians (lat2 - lat1) / 2) ^ 2 +
      Real.cos (radians lat1) * Real.cos (radians lat2) *
        Real.sin (radians (lon2 - lon1) / 2) ^ 2))
    (Real.sqrt (1 - (Real.sin (radians (lat2 - lat1) / 2) ^ 2 +
      Real.cos (radians lat1) * Real.cos (radians lat2) *
        Real.sin (radians (lon2 - lon1) / 2) ^ 2)))
    (Real.sqrt_nonneg _) (Real.sqrt_nonneg _)
  nlinarith

/-- Claim C3: membership in the step-3 band filter is exactly membership
in the input together with distance in the inclusive band
`[target - tolerance, target + tolerance]`; in particular a row at
distance exactly `target + tolerance` (or `target - tolerance`) is
retained, and a row at distance `target + tolerance + 0.01` is always
dropped. -/
theorem band_filter_inclusive_bounds (rows : List (Place × ℝ)) (target tolerance : ℝ)
    (p : Place) (htol : 0 ≤ tolerance) :
    (∀ pd : Place × ℝ, pd ∈ band_filter rows target tolerance ↔
      pd ∈ rows ∧ target - tolerance ≤ pd.2 ∧ pd.2 ≤ target + tolerance) ∧
    ((p, target + tolerance) ∈ rows →
      (p, target + tolerance) ∈ band_filter rows target tolerance) ∧
    ((p, target - tolerance) ∈ rows →
      (p, target - tolerance) ∈ band_filter rows target tolerance) ∧
    (p, target + tolerance + 0.01) ∉ band_filter rows target tolerance := by
  have hmem : ∀ pd : Place × ℝ, pd ∈ band_filter rows target tolerance ↔
      pd ∈ rows ∧ target - tolerance ≤ pd.2 ∧ pd.2 ≤ target + tolerance := by
    intro pd
    simp [band_filter, List.mem_filter]
  refine ⟨hmem,
    fun h => (hmem _).mpr
      ⟨h, by change target - tolerance ≤ target + tolerance; linarith,
        by change target + tolerance ≤ target + tolerance; linarith⟩,
    fun h => (hmem _).mpr
      ⟨h, by change target - tolerance ≤ target - tolerance; linarith,
        by change target - tolerance ≤ target + tolerance; linarith⟩,
    fun h => ?_⟩
  have hle := ((hmem _).mp h).2.2
  norm_num at hle

/-- A concrete catalog row used in witnesses and counterexamples. -/
def gateway : Place := ⟨"Gateway of India", "Delhi", 0, 0⟩

lemma gateway_lat : gateway.latitude = 0 := rfl

lemma gateway_lon : gateway.longitude = 0 := rfl

lemma gateway_city : gateway.city = "Delhi" := rfl

/-- Witness for claim C3 at the spec's scenario `target = 1300`,
`tolerance = 150`. -/
theorem band_filter_inclusive_bounds_witness :
    (gateway, (1300 + 150 : ℝ)) ∈
      band_filter [(gateway, (1300 + 150 : ℝ))] 1300 150 ∧
    (gateway, (1300 + 150 + 0.01 : ℝ)) ∉
      band_filter [(gateway, (1300 + 150 + 0.01 : ℝ))] 1300 150 :=
  ⟨(band_filter_inclusive_bounds [(gateway, (1300 + 150 : ℝ))] 1300 150 gateway
      (by norm_num)).2.1 (List.mem_singleton.mpr rfl),
   (band_filter_inclusive_bounds [(gateway, (1300 + 150 + 0.01 : ℝ))] 1300 150 gateway
      (by norm_num)).2.2.2⟩

/-- Counterexample to claim C6: on a catalog lacking the `City` column,
`filter_places` raises no schema error — it returns the plain empty list,
indistinguishable from "no matches", although the very same rows with the
column present produce `["Delhi"]`. -/
theorem filter_places_missing_city_silent_cex :
    filter_places ⟨false, true, [gateway], none⟩ 0 0 100 150 = [] ∧
    filter_places ⟨true, true, [gateway], none⟩ 0 0 100 150 = ["Delhi"] := by
  constructor
  · simp [filter_places]
  · have hbox : box_filter [gateway] 0 0 (100 + 150) = [gateway] := by
      norm_num [box_filter, bounding_box, gateway, radians]
    have hdist : with_distance 0 0 [gateway] = [(gateway, 0)] := by
      simp [with_distance, gateway_lat, gateway_lon, haversine_self]
    have hband : band_filter [(gateway, 0)] 100 150 = [(gateway, 0)] := by
      norm_num [band_filter]
    have hsort : sort_by_distance [(gateway, (0 : ℝ))] = [(gateway, 0)] := by
      simp [sort_by_distance]
    simp [filter_places, hbox, hdist, hband, hsort, collect_cities, gateway_city]

/-- Claim C6 (amended): when the catalog lacks the `City` (or `Name`)
column, `filter_places` silently returns the empty list — a value
indistinguishable from a legitimate empty result — instead of failing
with a schema error. -/
theorem filter_places_missing_schema_returns_empty (df : Table)
    (lat_x lon_x max_distance_km tolerance : ℝ)
    (h : df.hasCity = false ∨ df.hasName = false) :
    filter_places df lat_x lon_x max_distance_km tolerance = [] := by
  rcases h with h | h <;> simp [filter_places, h]

/-- Witness for the amended claim C6 at a concrete input. -/
theorem filter_places_missing_schema_returns_empty_witness :
    filter_places ⟨false, true, [gateway], none⟩ 5 5 100 150 = [] :=
  filter_places_missing_schema_returns_empty ⟨false, true, [gateway], none⟩
    5 5 100 150 (Or.inl rfl)

/-- Claim C10: the public `recommend_cities` operation always invokes
`trip_logic` with the fixed defaults `sleep = 6, meal = 3, buffer = 2`,
relaxed/compromise off, and `filter_places` with the fixed tolerance
`150`; the request carries only `user_location`, `trip_days` and `speed`,
so no request parameter can change these values. -/
theorem recommend_cities_fixed_defaults (geocode : String → Option (ℝ × ℝ))
    (df : Table) (request : RecommendRequest) (lat lon : ℝ) :
    (geocode request.user_location = some (lat, lon) →
      recommend_cities geocode df request =
        RecommendResponse.ok
          (round2 (trip_logic (request.trip_days : ℝ) (request.speed : ℝ) 6 3 2 false).1)
          ((filter_places df lat lon
              (trip_logic (request.trip_days : ℝ) (request.speed : ℝ) 6 3 2 false).1
              150).take 5)) ∧
    (geocode request.user_location = none →
      recommend_cities geocode df request = RecommendResponse.locationNotFound) := by
  constructor <;> intro h <;> simp [recommend_cities, h]

/-- Witness for claim C10: a Mumbai-like request with `trip_days = 3`,
`speed = 50` against an empty catalog yields `max_distance_km = 1300` and
no recommended cities. -/
theorem recommend_cities_fixed_defaults_witness :
    recommend_cities (fun _ => some (19.0760, 72.8777)) ⟨true, true, [], none⟩
        ⟨"Mumbai", 3, 50⟩ = RecommendResponse.ok 1300 [] := by
  have h := (recommend_cities_fixed_defaults (fun _ => some (19.0760, 72.8777))
    ⟨true, true, [], none⟩ ⟨"Mumbai", 3, 50⟩ 19.0760 72.8777).1 rfl
  rw [h]
  have ht : trip_logic (3 : ℝ) (50 : ℝ) 6 3 2 false = (1300, 39) := by
    simp only [trip_logic, if_neg (by simp : ¬(false : Bool) = true)]
    norm_num
  have hf : filter_places ⟨true, true, [], none⟩ 19.0760 72.8777 (1300 : ℝ) 150 = [] := by
    simp [filter_places, box_filter, with_distance, band_filter, sort_by_distance,
      collect_cities]
  have hr : round2 (1300 : ℝ) = 1300 := by
    have h100 : (1300 : ℝ) * 100 = ((130000 : ℤ) : ℝ) := by norm_num
    rw [round2, h100, round_intCast]
    norm_num
  simp [ht, hf, hr]

/-- Zipping a list with its own image under `f` pairs every element with
its image. -/
lemma zip_map_self {α β : Type} (f : α → β) :
    ∀ xs : List α, xs.zip (xs.map f) = xs.map fun x => (x, f x)
  | [] => rfl
  | x :: xs => by
    rw [List.map_cons, List.zip_cons_cons, zip_map_self f xs, List.map_cons]

/-- Setting the cell just past the original list rewrites only the
appended cell. -/
lemma set_append_length {α : Type} (l : List α) (t1 t2 : α) :
    (l ++ [t1]).set l.length t2 = l ++ [t2] := by
  induction l with
  | nil => rfl
  | cons a as ih => simp [ih]

/-- Reading the cell just past the original list returns the appended
element. -/
lemma getD_append_length {α : Type} (l : List α) (t d : α) :
    (l ++ [t]).getD l.length d = t := by
  rw [List.getD_eq_getElem?_getD, List.getElem?_append_right (le_refl _)]
  simp

/-- Claim C9: the store-passing embedding of `filter_places` leaves the
shared catalog table untouched — the only write of the pipeline (the
added `distance_km` column) lands on the fresh copy allocated at line 85
— and the returned city list agrees with the pure embedding. -/
theorem filter_places_store_frame (store : List Table) (dfRef : ℕ)
    (lat_x lon_x max_distance_km tolerance : ℝ) (h : dfRef < store.length) :
    ((filter_places_store store dfRef lat_x lon_x max_distance_km tolerance).2.getD dfRef
        emptyTable = store.getD dfRef emptyTable) ∧
    (filter_places_store store dfRef lat_x lon_x max_distance_km tolerance).1
        = filter_places (store.getD dfRef emptyTable) lat_x lon_x max_distance_km tolerance := by
  have hset : ∀ t1 t2 : Table, (store ++ [t1]).set store.length t2 = store ++ [t2] :=
    fun t1 t2 => set_append_length store t1 t2
  have hlast : ∀ t : Table, (store ++ [t]).getD store.length emptyTable = t :=
    fun t => getD_append_length store t emptyTable
  simp only [filter_places_store, filter_places, hset, hlast]
  constructor
  · rw [List.getD_eq_getElem?_getD, List.getD_eq_getElem?_getD,
      List.getElem?_append_left h]
  · simp [with_distance, zip_map_self]

/-- Witness for claim C9 at a concrete one-table store. -/
theorem filter_places_store_frame_witness :
    ((filter_places_store [⟨true, true, [gateway], none⟩] 0 0 0 100 150).2.getD 0 emptyTable
        = [(⟨true, true, [gateway], none⟩ : Table)].getD 0 emptyTable) ∧
    (filter_places_store [⟨true, true, [gateway], none⟩] 0 0 0 100 150).1
        = filter_places ([(⟨true, true, [gateway], none⟩ : Table)].getD 0 emptyTable)
            0 0 100 150 :=
  filter_places_store_frame [⟨true, true, [gateway], none⟩] 0 0 0 100 150 (by simp)

/-- Distance of the first row of the list whose city is `c` (junk value
`0` when `c` does not occur). -/
def firstDist : List (Place × ℝ) → String → ℝ
  | [], _ => 0
  | pd :: rest, c => if pd.1.city = c then pd.2 else firstDist rest c

lemma firstDist_cons_self {pd : Place × ℝ} {rest : List (Place × ℝ)} {c : String}
    (h : pd.1.city = c) : firstDist (pd :: rest) c = pd.2 := by
  simp [firstDist, h]

lemma firstDist_cons_ne {pd : Place × ℝ} {rest : List (Place × ℝ)} {c : String}
    (h : pd.1.city ≠ c) : firstDist (pd :: rest) c = firstDist rest c := by
  simp [firstDist, h]

/-- Full specification of the first-seen-wins city walk over a list
sorted ascending by distance: the walk appends, after the accumulator, a
duplicate-free block of fresh cities; each collected city is realised by
a row whose distance is that city's first-occurrence distance, which is
minimal among the city's rows; and the collected cities are pairwise
ordered by those first-occurrence distances. -/
lemma collect_cities_spec :
    ∀ L : List (Place × ℝ), L.Pairwise (fun a b => a.2 ≤ b.2) →
    ∀ acc : List String,
      ∃ ex : List String,
        collect_cities L acc = acc ++ ex ∧
        ex.Nodup ∧
        (∀ c ∈ ex, c ∉ acc) ∧
        (∀ c ∈ ex, ∃ pd, pd ∈ L ∧ pd.1.city = c ∧ pd.2 = firstDist L c) ∧
        (∀ c ∈ ex, ∀ qd, qd ∈ L → qd.1.city = c → firstDist L c ≤ qd.2) ∧
        ex.Pairwise fun c1 c2 => firstDist L c1 ≤ firstDist L c2
  | [], _, acc =>
    ⟨[], by simp [collect_cities], by simp, by simp, by simp, by simp, by simp⟩
  | pd :: rest, hL, acc => by
    have hhead : ∀ qd ∈ rest, pd.2 ≤ qd.2 := (List.pairwise_cons.mp hL).1
    have hrest : rest.Pairwise fun a b => a.2 ≤ b.2 := (List.pairwise_cons.mp hL).2
    by_cases hmem : pd.1.city ∈ acc
    · obtain ⟨ex, he, hnd, hna, hreal, hmin, hpw⟩ := collect_cities_spec rest hrest acc
      have hfd : ∀ c ∈ ex, firstDist (pd :: rest) c = firstDist rest c := by
        intro c hc
        exact firstDist_cons_ne fun hcity => (hna c hc) (hcity ▸ hmem)
      refine ⟨ex, ?_, hnd, hna, ?_, ?_, ?_⟩
      · simpa [collect_cities, hmem] using he
      · intro c hc
        obtain ⟨qd, hq, hqc, hqd⟩ := hreal c hc
        exact ⟨qd, List.mem_cons_of_mem _ hq, hqc, by rw [hfd c hc]; exact hqd⟩
      · intro c hc qd hq hqc
        rw [hfd c hc]
        rcases List.mem_cons.mp hq with rfl | hq'
        · exact absurd hqc fun hcity => (hna c hc) (hcity ▸ hmem)
        · exact hmin c hc qd hq' hqc
      · refine hpw.imp_of_mem ?_
        intro c1 c2 h1 h2 hle
        rw [hfd c1 h1, hfd c2 h2]
        exact hle
    · obtain ⟨ex, he, hnd, hna, hreal, hmin, hpw⟩ :=
        collect_cities_spec rest hrest (acc ++ [pd.1.city])
      have hna2 : ∀ c ∈ ex, c ∉ acc ∧ c ≠ pd.1.city := by
        intro c hc
        have hmem2 := hna c hc
        simp only [List.mem_append, List.mem_singleton] at hmem2
        push_neg at hmem2
        exact hmem2
      have hfd : ∀ c ∈ ex, firstDist (pd :: rest) c = firstDist rest c := fun c hc =>
        firstDist_cons_ne ((hna2 c hc).2.symm)
      have hfd0 : firstDist (pd :: rest) pd.1.city = pd.2 := firstDist_cons_self rfl
      refine ⟨pd.1.city :: ex, ?_, ?_, ?_, ?_, ?_, ?_⟩
      · have hstep : collect_cities (pd :: rest) acc
            = collect_cities rest (acc ++ [pd.1.city]) := by
          simp [collect_cities, hmem]
        rw [hstep, he, List.append_assoc]
        rfl
      · exact List.nodup_cons.mpr ⟨fun hc => (hna2 _ hc).2 rfl, hnd⟩
      · intro c hc
        rcases List.mem_cons.mp hc with rfl | hc'
        · exact hmem
        · exact (hna2 c hc').1
      · intro c hc
        rcases List.mem_cons.mp hc with rfl | hc'
        · exact ⟨pd, List.mem_cons_self _ _, rfl, hfd0.symm⟩
        · obtain ⟨qd, hq, hqc, hqd⟩ := hreal c hc'
          exact ⟨qd, List.mem_cons_of_mem _ hq, hqc, by rw [hfd c hc']; exact hqd⟩
      · intro c hc qd hq hqc
        rcases List.mem_cons.mp hc with rfl | hc'
        · rw [hfd0]
          rcases List.mem_cons.mp hq with rfl | hq'
          · exact le_refl _
          · exact hhead qd hq'
        · rw [hfd c hc']
          rcases List.mem_cons.mp hq with rfl | hq'
          · exact absurd hqc.symm ((hna2 c hc').2)
          · exact hmin c hc' qd hq' hqc
      · refine List.pairwise_cons.mpr ⟨?_, ?_⟩
        · intro c hc
          rw [hfd0, hfd c hc]
          obtain ⟨qd, hq, hqc, hqd⟩ := hreal c hc
          rw [← hqd]
          exact hhead qd hq
        · refine hpw.imp_of_mem ?_
          intro c1 c2 h1 h2 hle
          rw [hfd c1 h1, hfd c2 h2]
          exact hle

/-- The sort stage produces a list pairwise ordered by distance. -/
lemma sort_by_distance_sorted (rows : List (Place × ℝ)) :
    (sort_by_distance rows).Pairwise fun a b => a.2 ≤ b.2 := by
  have htrans : ∀ a b c : Place × ℝ, (fun x y : Place × ℝ => decide (x.2 ≤ y.2)) a b →
      (fun x y : Place × ℝ => decide (x.2 ≤ y.2)) b c →
      (fun x y : Place × ℝ => decide (x.2 ≤ y.2)) a c := by
    intro a b c hab hbc
    simp only [decide_eq_true_eq] at hab hbc ⊢
    exact le_trans hab hbc
  have htotal : ∀ a b : Place × ℝ, ((fun x y : Place × ℝ => decide (x.2 ≤ y.2)) a b
      || (fun x y : Place × ℝ => decide (x.2 ≤ y.2)) b a) := by
    intro a b
    simp only [Bool.or_eq_true, decide_eq_true_eq]
    exact le_total a.2 b.2
  have h := List.sorted_mergeSort htrans htotal rows
  simp only [sort_by_distance]
  exact h.imp fun hab => by simpa using hab

/-- The sort stage preserves membership. -/
lemma sort_by_distance_mem (rows : List (Place × ℝ)) (pd : Place × ℝ) :
    pd ∈ sort_by_distance rows ↔ pd ∈ rows := by
  simp [sort_by_distance]

/-- Claim C2: the city list returned by `filter_places` is duplicate-free,
holds at most five identifiers, and is pairwise ordered so that each
earlier city owns a surviving in-band row of minimal distance within its
own city that is also no farther than every surviving in-band row of each
later city (i.e. ascending by per-city minimum exact distance). -/
theorem filter_places_distinct_sorted_capped (df : Table)
    (lat_x lon_x max_distance_km tolerance : ℝ) :
    (filter_places df lat_x lon_x max_distance_km tolerance).Nodup ∧
    (filter_places df lat_x lon_x max_distance_km tolerance).length ≤ 5 ∧
    (filter_places df lat_x lon_x max_distance_km tolerance).Pairwise
      (fun c1 c2 => ∃ pd,
        pd ∈ band_filter (with_distance lat_x lon_x
            (box_filter df.rows lat_x lon_x (max_distance_km + tolerance)))
            max_distance_km tolerance ∧
        pd.1.city = c1 ∧
        (∀ qd ∈ band_filter (with_distance lat_x lon_x
            (box_filter df.rows lat_x lon_x (max_distance_km + tolerance)))
            max_distance_km tolerance, qd.1.city = c1 → pd.2 ≤ qd.2) ∧
        (∀ qd ∈ band_filter (with_distance lat_x lon_x
            (box_filter df.rows lat_x lon_x (max_distance_km + tolerance)))
            max_distance_km tolerance, qd.1.city = c2 → pd.2 ≤ qd.2)) := by
  by_cases hcols : (df.hasCity && df.hasName) = true
  case neg =>
    have hempty : filter_places df lat_x lon_x max_distance_km tolerance = [] := by
      simp only [filter_places, if_neg hcols]
      simp
    rw [hempty]
    refine ⟨List.nodup_nil, by simp, List.Pairwise.nil⟩
  case pos =>
    have hout : filter_places df lat_x lon_x max_distance_km tolerance
        = (collect_cities (sort_by_distance (band_filter (with_distance lat_x lon_x
            (box_filter df.rows lat_x lon_x (max_distance_km + tolerance)))
            max_distance_km tolerance)) []).take 5 := by
      simp only [filter_places, if_pos hcols]
    obtain ⟨ex, he, hnd, hna, hreal, hmin, hpw⟩ :=
      collect_cities_spec
        (sort_by_distance (band_filter (with_distance lat_x lon_x
          (box_filter df.rows lat_x lon_x (max_distance_km + tolerance)))
          max_distance_km tolerance))
        (sort_by_distance_sorted _) []
    rw [List.nil_append] at he
    rw [hout, he]
    refine ⟨List.Nodup.sublist (List.take_sublist _ _) hnd,
      List.length_take_le _ _, ?_⟩
    refine List.Pairwise.sublist (List.take_sublist _ _) ?_
    refine hpw.imp_of_mem ?_
    intro c1 c2 h1 h2 hle
    obtain ⟨pd, hpdS, hpdc, hpdd⟩ := hreal c1 h1
    refine ⟨pd, (sort_by_distance_mem _ pd).mp hpdS, hpdc, ?_, ?_⟩
    · intro qd hq hqc
      rw [hpdd]
      exact hmin c1 h1 qd ((sort_by_distance_mem _ qd).mpr hq) hqc
    · intro qd hq hqc
      rw [hpdd]
      exact le_trans hle (hmin c2 h2 qd ((sort_by_distance_mem _ qd).mpr hq) hqc)

/-- `arctan` is dominated by the identity on the non-negative reals. -/
lemma arctan_le_self (x : ℝ) (hx : 0 ≤ x) : Real.arctan x ≤ x := by
  rcases eq_or_lt_of_le hx with h | h
  · rw [← h]
    simp [Real.arctan_zero]
  · have h1 : 0 < Real.arctan x := by
      have h2 := Real.arctan_strictMono h
      rwa [Real.arctan_zero] at h2
    have h2 := Real.arctan_lt_pi_div_two x
    have h3 := Real.lt_tan h1 h2
    rw [Real.tan_arctan] at h3
    linarith

/-- Key lower bound for the haversine central angle: if `sin u ≤ √a` with
`u ∈ [0, π/2]` then the `atan2` form of the half-angle is at least `u`. -/
lemma le_atan2_sqrt (a u : ℝ) (hu0 : 0 ≤ u) (hu : u ≤ Real.pi / 2)
    (hs : Real.sin u ^ 2 ≤ a) :
    u ≤ atan2 (Real.sqrt a) (Real.sqrt (1 - a)) := by
  have hpi := Real.pi_pos
  by_cases ha : a < 1
  · have hx : 0 < Real.sqrt (1 - a) := Real.sqrt_pos.mpr (by linarith)
    simp only [atan2, if_pos hx]
    have hu2 : u < Real.pi / 2 := by
      rcases lt_or_eq_of_le hu with h | h
      · exact h
      · exfalso
        rw [h, Real.sin_pi_div_two] at hs
        norm_num at hs
        linarith
    have hsu : 0 ≤ Real.sin u :=
      Real.sin_nonneg_of_nonneg_of_le_pi hu0 (by linarith)
    have hsin : Real.sin u ≤ Real.sqrt a := by
      have h1 : Real.sin u = Real.sqrt (Real.sin u ^ 2) := (Real.sqrt_sq hsu).symm
      rw [h1]
      exact Real.sqrt_le_sqrt hs
    have hcu : 0 ≤ Real.cos u :=
      Real.cos_nonneg_of_mem_Icc (Set.mem_Icc.mpr ⟨by linarith, hu⟩)
    have hcos : Real.sqrt (1 - a) ≤ Real.cos u := by
      have h1 : Real.cos u = Real.sqrt (Real.cos u ^ 2) := (Real.sqrt_sq hcu).symm
      rw [h1]
      apply Real.sqrt_le_sqrt
      nlinarith [Real.sin_sq_add_cos_sq u]
    have htan : Real.tan u ≤ Real.sqrt a / Real.sqrt (1 - a) := by
      rw [Real.tan_eq_sin_div_cos]
      exact div_le_div₀ (Real.sqrt_nonneg a) hsin hx hcos
    calc u = Real.arctan (Real.tan u) := (Real.arctan_tan (by linarith) hu2).symm
      _ ≤ Real.arctan (Real.sqrt a / Real.sqrt (1 - a)) :=
          Real.arctan_strictMono.monotone htan
  · push_neg at ha
    have h0 : Real.sqrt (1 - a) = 0 := Real.sqrt_eq_zero'.mpr (by linarith)
    have hya : 0 < Real.sqrt a := Real.sqrt_pos.mpr (by linarith)
    rw [h0]
    simp only [atan2, if_neg (lt_irrefl (0 : ℝ)), if_pos hya]
    exact hu

/-- Claim C1 (amended, sound half): the latitude bounds of the prefilter
are sound — any place within haversine distance `r` of an origin with
valid latitudes lies inside `[lat - r/111, lat + r/111]`. -/
theorem bounding_box_lat_sound (lat1 lon1 lat2 lon2 r : ℝ)
    (h1 : -90 ≤ lat1) (h2 : lat1 ≤ 90) (h3 : -90 ≤ lat2) (h4 : lat2 ≤ 90)
    (hr : 0 < r) (hd : haversine lat1 lon1 lat2 lon2 ≤ r) :
    (bounding_box lat1 lon1 r).1 ≤ lat2 ∧ lat2 ≤ (bounding_box lat1 lon1 r).2.1 := by
  have hpi := Real.pi_gt_d6
  have hpi2 := Real.pi_pos
  set A := Real.sin (radians (lat2 - lat1) / 2) ^ 2 +
    Real.cos (radians lat1) * Real.cos (radians lat2) *
      Real.sin (radians (lon2 - lon1) / 2) ^ 2 with hA
  have hhav : haversine lat1 lon1 lat2 lon2
      = 6371 * (2 * atan2 (Real.sqrt A) (Real.sqrt (1 - A))) := by
    simp only [haversine, hA]
  set u := |radians (lat2 - lat1)| / 2 with hu_def
  have hu0 : 0 ≤ u := by positivity
  have habs : |radians (lat2 - lat1)| = |lat2 - lat1| * Real.pi / 180 := by
    simp only [radians]
    rw [abs_div, abs_mul, abs_of_pos hpi2, abs_of_pos (by norm_num : (0:ℝ) < 180)]
  have hd180 : |lat2 - lat1| ≤ 180 := by
    rw [abs_le]
    constructor <;> linarith
  have hu_le : u ≤ Real.pi / 2 := by
    rw [hu_def, habs]
    nlinarith [mul_le_mul_of_nonneg_right hd180 (le_of_lt hpi2)]
  have hcos1 : 0 ≤ Real.cos (radians lat1) := by
    apply Real.cos_nonneg_of_mem_Icc
    have hm1 := mul_le_mul_of_nonneg_right h1 (le_of_lt hpi2)
    have hm2 := mul_le_mul_of_nonneg_right h2 (le_of_lt hpi2)
    rw [Set.mem_Icc]
    constructor <;> simp only [radians] <;> linarith
  have hcos2 : 0 ≤ Real.cos (radians lat2) := by
    apply Real.cos_nonneg_of_mem_Icc
    have hm1 := mul_le_mul_of_nonneg_right h3 (le_of_lt hpi2)
    have hm2 := mul_le_mul_of_nonneg_right h4 (le_of_lt hpi2)
    rw [Set.mem_Icc]
    constructor <;> simp only [radians] <;> linarith
  have hsq : Real.sin u ^ 2 = Real.sin (radians (lat2 - lat1) / 2) ^ 2 := by
    rw [hu_def]
    rcases abs_cases (radians (lat2 - lat1)) with ⟨heq, _⟩ | ⟨heq, _⟩
    · rw [heq]
    · rw [heq, neg_div, Real.sin_neg, neg_sq]
  have hsin_le : Real.sin u ^ 2 ≤ A := by
    rw [hA, hsq]
    nlinarith [mul_nonneg (mul_nonneg hcos1 hcos2)
      (sq_nonneg (Real.sin (radians (lon2 - lon1) / 2)))]
  have hkey : u ≤ atan2 (Real.sqrt A) (Real.sqrt (1 - A)) :=
    le_atan2_sqrt A u hu0 hu_le hsin_le
  have hdist : 6371 * (2 * u) ≤ r := by
    rw [hhav] at hd
    linarith
  have habs_le : 111 * |lat2 - lat1| ≤ r := by
    rw [hu_def, habs] at hdist
    nlinarith [mul_nonneg (by linarith : (0:ℝ) ≤ Real.pi - 3.141592)
      (abs_nonneg (lat2 - lat1))]
  have habs2 : |lat2 - lat1| ≤ r / 111 := by linarith [abs_nonneg (lat2 - lat1)]
  obtain ⟨hlo, hhi⟩ := abs_le.mp habs2
  constructor
  · show lat1 - r / 111.0 ≤ lat2
    norm_num
    linarith
  · show lat2 ≤ lat1 + r / 111.0
    norm_num
    linarith

/-- Witness for the amended claim C1 at a concrete input. -/
theorem bounding_box_lat_sound_witness :
    (bounding_box 0 0 1).1 ≤ 0 ∧ (0 : ℝ) ≤ (bounding_box 0 0 1).2.1 :=
  bounding_box_lat_sound 0 0 0 0 1 (by norm_num) (by norm_num) (by norm_num)
    (by norm_num) (by norm_num) (by rw [haversine_self]; norm_num)

/-- Rational bounds for `sin (π/18)`, i.e. the cosine of 80 degrees. -/
lemma sin_pi_div_18_bounds :
    0.1731 ≤ Real.sin (Real.pi / 18) ∧ Real.sin (Real.pi / 18) ≤ 0.174533 := by
  have hl := Real.pi_gt_d6
  have hu := Real.pi_lt_d6
  have hx0 : 0 < Real.pi / 18 := by linarith
  have hx1 : Real.pi / 18 ≤ 1 := by linarith
  constructor
  · have h := Real.sin_gt_sub_cube hx0 hx1
    have hcube : (Real.pi / 18) ^ 3 ≤ (3.141593 / 18) ^ 3 :=
      pow_le_pow_left₀ (by linarith) (by linarith) 3
    nlinarith
  · have h := Real.sin_lt hx0
    linarith

/-- Counterexample to claim C1 (prefilter soundness): the origin
`(80, 0)` has valid coordinates, the radius `2000` is positive, and the
place `(80, 120)` has haversine distance at most `2000` from the origin —
yet its longitude `120` lies strictly outside the box's `max_lon`, so
`bounding_box (80, 0) 2000` excludes an in-range place. -/
theorem bounding_box_prefilter_unsound_cex :
    (0 : ℝ) < 2000 ∧
    ((-90 : ℝ) ≤ 80 ∧ (80 : ℝ) ≤ 90 ∧ (-180 : ℝ) ≤ 0 ∧ (0 : ℝ) ≤ 180) ∧
    ((-90 : ℝ) ≤ 80 ∧ (80 : ℝ) ≤ 90 ∧ (-180 : ℝ) ≤ 120 ∧ (120 : ℝ) ≤ 180) ∧
    haversine 80 0 80 120 ≤ 2000 ∧
    (bounding_box 80 0 2000).2.2.2 < 120 := by
  obtain ⟨hsl, hsu⟩ := sin_pi_div_18_bounds
  have hcos80 : Real.cos (radians 80) = Real.sin (Real.pi / 18) := by
    have h80 : radians 80 = Real.pi / 2 - Real.pi / 18 := by
      simp only [radians]; ring
    rw [h80, Real.cos_pi_div_two_sub]
  refine ⟨by norm_num, by norm_num, by norm_num, ?_, ?_⟩
  · have hdlat : radians (80 - 80) = 0 := by
      simp [radians]
    have hdlon2 : radians (120 - 0) / 2 = Real.pi / 3 := by
      simp only [radians]; ring
    have hsin3 : Real.sin (radians (120 - 0) / 2) = Real.sqrt 3 / 2 := by
      rw [hdlon2, Real.sin_pi_div_three]
    set s := Real.sin (Real.pi / 18) with hs_def
    have hA : Real.sin (radians (80 - 80) / 2) ^ 2 +
        Real.cos (radians 80) * Real.cos (radians 80) *
          Real.sin (radians (120 - 0) / 2) ^ 2 = s * s * (3 / 4) := by
      rw [hdlat, hsin3, hcos80]
      rw [div_pow, Real.sq_sqrt (by norm_num : (0:ℝ) ≤ 3)]
      norm_num
    simp only [haversine, hA]
    have hs0 : 0 ≤ s := by linarith
    have ha_ub : s * s * (3 / 4) ≤ 0.0228464 := by
      nlinarith [mul_le_mul hsu hsu hs0 (by norm_num : (0:ℝ) ≤ 0.174533)]
    have ha_lb : 0 ≤ s * s * (3 / 4) := by positivity
    have hx : 0 < Real.sqrt (1 - s * s * (3 / 4)) := Real.sqrt_pos.mpr (by linarith)
    simp only [atan2, if_pos hx]
    have harc := arctan_le_self
      (Real.sqrt (s * s * (3 / 4)) / Real.sqrt (1 - s * s * (3 / 4)))
      (div_nonneg (Real.sqrt_nonneg _) (Real.sqrt_nonneg _))
    have hfrac : Real.sqrt (s * s * (3 / 4)) / Real.sqrt (1 - s * s * (3 / 4))
        ≤ 1000 / 6371 := by
      rw [div_le_iff₀ hx]
      have hsq : Real.sqrt (s * s * (3 / 4))
          ≤ Real.sqrt ((1000 / 6371) ^ 2 * (1 - s * s * (3 / 4))) := by
        apply Real.sqrt_le_sqrt
        nlinarith
      calc Real.sqrt (s * s * (3 / 4))
          ≤ Real.sqrt ((1000 / 6371) ^ 2 * (1 - s * s * (3 / 4))) := hsq
        _ = (1000 / 6371) * Real.sqrt (1 - s * s * (3 / 4)) := by
            rw [Real.sqrt_mul (by positivity), Real.sqrt_sq (by norm_num)]
    linarith
  · show (0 : ℝ) + 2000 / (111.0 * Real.cos (radians 80)) < 120
    rw [hcos80, zero_add]
    have h111 : (0 : ℝ) < 111.0 * Real.sin (Real.pi / 18) := by nlinarith
    rw [div_lt_iff₀ h111]
    nlinarith

end TourGuide
